import Mathlib

/-!
Verification of the combined_lights brightness-distribution algorithm and
manual-change classification against its specification.

The definitions below are shallow embeddings of the Python sources:
* `custom_components/combined_lights/helpers/base_coordinator.py`
  (`BaseBrightnessCalculator`, `BaseCombinedLightsCoordinator`, `LightState`)
* `custom_components/combined_lights/helpers/ha_coordinator.py`
  (`HACombinedLightsCoordinator`)
* `custom_components/combined_lights/helpers/brightness_calculator.py`
  (the legacy blended-curve family)
* `custom_components/combined_lights/helpers/manual_change_detector.py`
  (`ManualChangeDetector`)
* `custom_components/combined_lights/light.py`
  (`CombinedLight._async_process_manual_changes`)

Python floats are modelled as real numbers; brightness values 0-255 as
integers; `int(x)` on a non-negative float as `Int.floor`.
-/

namespace CombinedLights

/-- The three stage breakpoints (`get_breakpoints` returns a 3-element list). -/
structure Breakpoints where
  b0 : ℝ
  b1 : ℝ
  b2 : ℝ

/-- List indexing `breakpoints[i]` for the indices 0..2 that the code uses. -/
def Breakpoints.get (bp : Breakpoints) (i : ℕ) : ℝ :=
  if i = 0 then bp.b0 else if i = 1 then bp.b1 else bp.b2

/-- The data-model invariant on breakpoints: `0 < b0 < b1 < b2 < 100`. -/
def Breakpoints.Valid (bp : Breakpoints) : Prop :=
  0 < bp.b0 ∧ bp.b0 < bp.b1 ∧ bp.b1 < bp.b2 ∧ bp.b2 < 100

/-- A `BaseBrightnessCalculator` instance: its two abstract methods
`get_breakpoints` and `get_stage_curve(stage_idx)`. -/
structure Calculator where
  bp : Breakpoints
  stageCurve : ℕ → String

/-- `BaseBrightnessCalculator.get_stage_from_brightness` (base_coordinator.py,
also duplicated in brightness_calculator.py): stage index 0-3 from an overall
percentage, breakpoints inclusive on the lower stage. -/
noncomputable def getStageFromBrightness (c : Calculator) (brightnessPct : ℝ) : ℕ :=
  if brightnessPct ≤ c.bp.b0 then 0
  else if brightnessPct ≤ c.bp.b1 then 1
  else if brightnessPct ≤ c.bp.b2 then 2
  else 3

/-- `BaseBrightnessCalculator._apply_brightness_curve`: the power family.
Python `** 0.5` and `** (1/3)` are real powers. Unknown curve strings fall
through to linear, as in the code. -/
noncomputable def applyBrightnessCurve (progress : ℝ) (curveType : String) : ℝ :=
  if curveType = "quadratic" then progress * progress
  else if curveType = "cubic" then progress * progress * progress
  else if curveType = "sqrt" then progress ^ ((1 : ℝ) / 2)
  else if curveType = "cbrt" then progress ^ ((1 : ℝ) / 3)
  else progress

/-- `BaseBrightnessCalculator._reverse_brightness_curve`. -/
noncomputable def reverseBrightnessCurve (curvedValue : ℝ) (curveType : String) : ℝ :=
  if curveType = "quadratic" then curvedValue ^ ((1 : ℝ) / 2)
  else if curveType = "cubic" then curvedValue ^ ((1 : ℝ) / 3)
  else if curveType = "sqrt" then curvedValue ^ 2
  else if curveType = "cbrt" then curvedValue ^ 3
  else curvedValue

/-- `BaseBrightnessCalculator.calculate_zone_brightness(overall_pct, stage)`
for stages numbered 1-4 (the claims only use these). -/
noncomputable def calculateZoneBrightness (c : Calculator) (overallPct : ℝ) (stage : ℕ) : ℝ :=
  let stageIdx := stage - 1
  if 3 < stageIdx then 0
  else
    let activationPoint : ℝ := if stageIdx = 0 then 0 else c.bp.get (stageIdx - 1)
    if overallPct ≤ activationPoint then 0
    else
      let rangeSpan := 100 - activationPoint
      if rangeSpan ≤ 0 then (if 100 ≤ overallPct then 100 else 0)
      else
        let progress := max 0 (min 1 ((overallPct - activationPoint) / rangeSpan))
        1 + applyBrightnessCurve progress (c.stageCurve stageIdx) * 99

/-- `BaseBrightnessCalculator._reverse_stage_brightness(stage, brightness_pct)`. -/
noncomputable def reverseStageBrightness (c : Calculator) (stage : ℕ) (brightnessPct : ℝ) : ℝ :=
  let stageIdx := stage - 1
  let curvedProgress := max 0 (min 1 ((brightnessPct - 1) / 99))
  let progress := reverseBrightnessCurve curvedProgress (c.stageCurve stageIdx)
  let activationPoint : ℝ := if stageIdx = 0 then 0 else c.bp.get (stageIdx - 1)
  let rangeSpan := 100 - activationPoint
  max 0 (min 100 (activationPoint + progress * rangeSpan))

/-- `BaseBrightnessCalculator.estimate_overall_from_single_light(stage, brightness_pct)`. -/
noncomputable def estimateOverallFromSingleLight (c : Calculator) (stage : ℕ)
    (brightnessPct : ℝ) : ℝ :=
  if brightnessPct ≤ 0 then
    if stage = 1 then 0 else c.bp.get (stage - 2)
  else reverseStageBrightness c stage brightnessPct

/-- Loop body of `estimate_overall_from_zones`: keep the stage as the new
highest active one when its entry is a positive brightness (Python
`if brightness and brightness > 0`), else keep the accumulator. -/
noncomputable def zonePick (zones : ℕ → Option ℝ) (acc : ℕ × ℝ) (stage : ℕ) : ℕ × ℝ :=
  match zones stage with
  | some b => if 0 < b then (stage, b) else acc
  | none => acc

/-- `BaseBrightnessCalculator.estimate_overall_from_zones(zone_brightness)`:
the loop over stages 1..4 keeps the last stage with a positive brightness,
then delegates to `_reverse_stage_brightness`. -/
noncomputable def estimateOverallFromZones (c : Calculator) (zones : ℕ → Option ℝ) : ℝ :=
  let best := [1, 2, 3, 4].foldl (zonePick zones) (0, 0)
  if best.1 = 0 then 0 else reverseStageBrightness c best.1 best.2

/-- A stage entry in a zone-brightness map counts as active when it holds a
positive brightness. -/
def ZoneActive (zones : ℕ → Option ℝ) (stage : ℕ) : Prop :=
  match zones stage with
  | some b => 0 < b
  | none => False

/-- C8: stage lookup inclusivity. With valid breakpoints, the stage index is 0
(stage 1) iff `p ≤ b0`, 1 (stage 2) iff `b0 < p ≤ b1`, 2 (stage 3) iff
`b1 < p ≤ b2` and 3 (stage 4) otherwise; with breakpoints `[25, 50, 75]`,
25 maps to stage 1, 26 and 50 to stage 2, 51 and 75 to stage 3, 76 to
stage 4 (stage number = index + 1). -/
theorem stage_lookup_inclusive (c : Calculator) (p : ℝ) (hv : c.bp.Valid) :
    (getStageFromBrightness c p = 0 ↔ p ≤ c.bp.b0) ∧
    (getStageFromBrightness c p = 1 ↔ c.bp.b0 < p ∧ p ≤ c.bp.b1) ∧
    (getStageFromBrightness c p = 2 ↔ c.bp.b1 < p ∧ p ≤ c.bp.b2) ∧
    (getStageFromBrightness c p = 3 ↔ c.bp.b2 < p) ∧
    (∀ cc : Calculator, cc.bp = ⟨25, 50, 75⟩ →
      getStageFromBrightness cc 25 + 1 = 1 ∧
      getStageFromBrightness cc 26 + 1 = 2 ∧
      getStageFromBrightness cc 50 + 1 = 2 ∧
      getStageFromBrightness cc 51 + 1 = 3 ∧
      getStageFromBrightness cc 75 + 1 = 3 ∧
      getStageFromBrightness cc 76 + 1 = 4) := by
  obtain ⟨h0, h01, h12, h2⟩ := hv
  refine ⟨?_, ?_, ?_, ?_, ?_⟩
  · unfold getStageFromBrightness
    split_ifs with hA hB hC
    · simpa using hA
    · simpa using hA
    · simpa using hA
    · simpa using hA
  · unfold getStageFromBrightness
    split_ifs with hA hB hC
    · exact iff_of_false (by decide) (by rintro ⟨h1, _⟩; exact absurd hA (not_le.mpr h1))
    · exact iff_of_true rfl ⟨lt_of_not_le hA, hB⟩
    · exact iff_of_false (by decide) (by rintro ⟨_, h2⟩; exact hB h2)
    · exact iff_of_false (by decide) (by rintro ⟨_, h2⟩; exact hB h2)
  · unfold getStageFromBrightness
    split_ifs with hA hB hC
    · exact iff_of_false (by decide) (by rintro ⟨h1, _⟩; linarith)
    · exact iff_of_false (by decide) (by rintro ⟨h1, _⟩; exact absurd hB (not_le.mpr h1))
    · exact iff_of_true rfl ⟨lt_of_not_le hB, hC⟩
    · exact iff_of_false (by decide) (by rintro ⟨_, h2⟩; exact hC h2)
  · unfold getStageFromBrightness
    split_ifs with hA hB hC
    · exact iff_of_false (by decide) (by intro h; linarith)
    · exact iff_of_false (by decide) (by intro h; linarith)
    · exact iff_of_false (by decide) (by intro h; linarith)
    · exact iff_of_true rfl (lt_of_not_le hC)
  · intro cc hcc
    refine ⟨?_, ?_, ?_, ?_, ?_, ?_⟩ <;>
      norm_num [getStageFromBrightness, hcc]

/-- Witness for C8 at breakpoints `[25, 50, 75]` and `p = 30`. -/
theorem stage_lookup_inclusive_witness :
    Breakpoints.Valid ⟨25, 50, 75⟩ ∧
    (getStageFromBrightness ⟨⟨25, 50, 75⟩, fun _ => "linear"⟩ 30 = 1 ↔
      (25 : ℝ) < 30 ∧ (30 : ℝ) ≤ 50) := by
  constructor
  · refine ⟨by norm_num, by norm_num, by norm_num, by norm_num⟩
  · exact (stage_lookup_inclusive ⟨⟨25, 50, 75⟩, fun _ => "linear"⟩ 30
      ⟨by norm_num, by norm_num, by norm_num, by norm_num⟩).2.1

/-! ### Properties of the power-family curves (base_coordinator.py) -/

lemma applyCurve_nonneg {x : ℝ} (hx : 0 ≤ x) (k : String) :
    0 ≤ applyBrightnessCurve x k := by
  unfold applyBrightnessCurve
  split_ifs
  · exact mul_nonneg hx hx
  · exact mul_nonneg (mul_nonneg hx hx) hx
  · exact Real.rpow_nonneg hx _
  · exact Real.rpow_nonneg hx _
  · exact hx

lemma applyCurve_le_one {x : ℝ} (hx0 : 0 ≤ x) (hx1 : x ≤ 1) (k : String) :
    applyBrightnessCurve x k ≤ 1 := by
  unfold applyBrightnessCurve
  split_ifs
  · calc x * x ≤ 1 * 1 := by gcongr
      _ = 1 := by ring
  · calc x * x * x ≤ 1 * 1 * 1 := by gcongr
      _ = 1 := by ring
  · exact Real.rpow_le_one hx0 hx1 (by norm_num)
  · exact Real.rpow_le_one hx0 hx1 (by norm_num)
  · exact hx1

lemma reverseCurve_zero (k : String) : reverseBrightnessCurve 0 k = 0 := by
  unfold reverseBrightnessCurve
  split_ifs
  · exact Real.zero_rpow (by norm_num)
  · exact Real.zero_rpow (by norm_num)
  · exact zero_pow (by norm_num)
  · exact zero_pow (by norm_num)
  · rfl

lemma reverseCurve_nonneg {y : ℝ} (hy : 0 ≤ y) (k : String) :
    0 ≤ reverseBrightnessCurve y k := by
  unfold reverseBrightnessCurve
  split_ifs
  · exact Real.rpow_nonneg hy _
  · exact Real.rpow_nonneg hy _
  · exact pow_nonneg hy _
  · exact pow_nonneg hy _
  · exact hy

lemma reverseCurve_le_one {y : ℝ} (hy0 : 0 ≤ y) (hy1 : y ≤ 1) (k : String) :
    reverseBrightnessCurve y k ≤ 1 := by
  unfold reverseBrightnessCurve
  split_ifs
  · exact Real.rpow_le_one hy0 hy1 (by norm_num)
  · exact Real.rpow_le_one hy0 hy1 (by norm_num)
  · exact pow_le_one₀ hy0 hy1
  · exact pow_le_one₀ hy0 hy1
  · exact hy1

lemma reverseCurve_pos {y : ℝ} (hy : 0 < y) (k : String) :
    0 < reverseBrightnessCurve y k := by
  unfold reverseBrightnessCurve
  split_ifs
  · exact Real.rpow_pos_of_pos hy _
  · exact Real.rpow_pos_of_pos hy _
  · exact pow_pos hy _
  · exact pow_pos hy _
  · exact hy

/-- The power family's forward curve inverts its reverse exactly on `[0, ∞)`. -/
lemma applyCurve_reverseCurve {y : ℝ} (hy : 0 ≤ y) (k : String) :
    applyBrightnessCurve (reverseBrightnessCurve y k) k = y := by
  rcases eq_or_lt_of_le hy with h0 | hpos
  · rw [← h0, reverseCurve_zero]
    unfold applyBrightnessCurve
    split_ifs
    · ring
    · ring
    · exact Real.zero_rpow (by norm_num)
    · exact Real.zero_rpow (by norm_num)
    · rfl
  · unfold applyBrightnessCurve reverseBrightnessCurve
    split_ifs
    · rw [← Real.rpow_add hpos]
      norm_num
    · rw [← Real.rpow_add hpos, ← Real.rpow_add hpos]
      norm_num
    · rw [show (y ^ 2 : ℝ) = y ^ (2 : ℕ) from rfl, ← Real.rpow_natCast y 2,
        ← Real.rpow_mul hy]
      norm_num
    · rw [show (y ^ 3 : ℝ) = y ^ (3 : ℕ) from rfl, ← Real.rpow_natCast y 3,
        ← Real.rpow_mul hy]
      norm_num
    · rfl

/-- Core of the round-trip: with the stage's activation point `a` in
`[0, 100)`, running the single-light inverse and then the forward zone
calculation returns `p` up to 1. -/
lemma zone_roundtrip_aux (c : Calculator) (stage : ℕ) (a p : ℝ)
    (hidx : stage - 1 ≤ 3)
    (hact : (if stage - 1 = 0 then (0 : ℝ) else c.bp.get (stage - 1 - 1)) = a)
    (ha0 : 0 ≤ a) (ha1 : a < 100) (hp0 : 0 < p) (hp1 : p ≤ 100) :
    |calculateZoneBrightness c (estimateOverallFromSingleLight c stage p) stage - p| ≤ 1 := by
  have hspan : (0 : ℝ) < 100 - a := by linarith
  rw [estimateOverallFromSingleLight, if_neg (not_le.mpr hp0)]
  rw [reverseStageBrightness]
  simp only [hact]
  set k := c.stageCurve (stage - 1) with hk
  set cv := max 0 (min 1 ((p - 1) / 99)) with hcv
  have hcv0 : 0 ≤ cv := le_max_left _ _
  have hcv1 : cv ≤ 1 := by
    apply max_le (by norm_num)
    exact min_le_left _ _
  set pr := reverseBrightnessCurve cv k with hpr
  have hpr0 : 0 ≤ pr := reverseCurve_nonneg hcv0 k
  have hpr1 : pr ≤ 1 := reverseCurve_le_one hcv0 hcv1 k
  have hov_lo : a ≤ a + pr * (100 - a) := by nlinarith
  have hov_hi : a + pr * (100 - a) ≤ 100 := by nlinarith
  have hclamp : max 0 (min 100 (a + pr * (100 - a))) = a + pr * (100 - a) := by
    rw [min_eq_right hov_hi, max_eq_right (le_trans ha0 hov_lo)]
  rw [hclamp]
  by_cases hp_low : p ≤ 1
  · -- below 1 % the curved progress clamps to 0 and the zone reads back 0
    have hcv_eq : cv = 0 := by
      rw [hcv]
      have : (p - 1) / 99 ≤ 0 := by
        apply div_nonpos_of_nonpos_of_nonneg <;> linarith
      rw [min_eq_right (by linarith : (p - 1) / 99 ≤ 1), max_eq_left this]
    have hpr_eq : pr = 0 := by rw [hpr, hcv_eq, reverseCurve_zero]
    rw [hpr_eq]
    rw [calculateZoneBrightness]
    simp only [hact]
    rw [if_neg (not_lt.mpr hidx), if_pos (by linarith : a + 0 * (100 - a) ≤ a)]
    rw [abs_sub_comm, abs_of_nonneg (by linarith)]
    linarith
  · -- above 1 % the inverse is exact
    push_neg at hp_low
    have hcv_eq : cv = (p - 1) / 99 := by
      rw [hcv]
      have h1 : (p - 1) / 99 ≤ 1 := by
        rw [div_le_one (by norm_num)]
        linarith
      have h2 : (0 : ℝ) ≤ (p - 1) / 99 := div_nonneg (by linarith) (by norm_num)
      rw [min_eq_right h1, max_eq_right h2]
    have hcv_pos : 0 < cv := by
      rw [hcv_eq]
      exact div_pos (by linarith) (by norm_num)
    have hpr_pos : 0 < pr := reverseCurve_pos hcv_pos k
    rw [calculateZoneBrightness]
    simp only [hact]
    rw [if_neg (not_lt.mpr hidx)]
    rw [if_neg (by push_neg; nlinarith : ¬ a + pr * (100 - a) ≤ a)]
    rw [if_neg (by push_neg; linarith : ¬ 100 - a ≤ 0)]
    have hprog : max 0 (min 1 ((a + pr * (100 - a) - a) / (100 - a))) = pr := by
      have : (a + pr * (100 - a) - a) / (100 - a) = pr := by
        field_simp
      rw [this, min_eq_right hpr1, max_eq_right hpr0]
    rw [hprog, hpr, applyCurve_reverseCurve hcv0, hcv_eq]
    have : 1 + (p - 1) / 99 * 99 = p := by ring
    rw [this, sub_self, abs_zero]
    norm_num

/-- C1: round-trip of the brightness distribution. For every stage 1-4, every
stage percentage `p ∈ (0, 100]`, valid breakpoints and any curve kind,
`calculate_zone_brightness(estimate_overall_from_single_light(s, p), s)` is
within 1 of `p`. -/
theorem brightness_roundtrip (c : Calculator) (stage : ℕ) (p : ℝ)
    (hs1 : 1 ≤ stage) (hs4 : stage ≤ 4) (hp0 : 0 < p) (hp1 : p ≤ 100)
    (hv : c.bp.Valid) :
    |calculateZoneBrightness c (estimateOverallFromSingleLight c stage p) stage - p| ≤ 1 := by
  obtain ⟨h0, h01, h12, h2⟩ := hv
  interval_cases stage
  · exact zone_roundtrip_aux c 1 0 p (by norm_num) (by norm_num) le_rfl (by norm_num) hp0 hp1
  · exact zone_roundtrip_aux c 2 c.bp.b0 p (by norm_num)
      (by norm_num [Breakpoints.get]) (by linarith) (by linarith) hp0 hp1
  · exact zone_roundtrip_aux c 3 c.bp.b1 p (by norm_num)
      (by norm_num [Breakpoints.get]) (by linarith) (by linarith) hp0 hp1
  · exact zone_roundtrip_aux c 4 c.bp.b2 p (by norm_num)
      (by norm_num [Breakpoints.get]) (by linarith) (by linarith) hp0 hp1

/-- Witness for C1: stage 2, `p = 50`, breakpoints `[25, 50, 75]`, sqrt curve. -/
theorem brightness_roundtrip_witness :
    (1 : ℕ) ≤ 2 ∧ (2 : ℕ) ≤ 4 ∧ (0 : ℝ) < 50 ∧ (50 : ℝ) ≤ 100 ∧
    Breakpoints.Valid ⟨25, 50, 75⟩ ∧
    |calculateZoneBrightness ⟨⟨25, 50, 75⟩, fun _ => "sqrt"⟩
      (estimateOverallFromSingleLight ⟨⟨25, 50, 75⟩, fun _ => "sqrt"⟩ 2 50) 2 - 50| ≤ 1 := by
  refine ⟨by norm_num, by norm_num, by norm_num, by norm_num,
    ⟨by norm_num, by norm_num, by norm_num, by norm_num⟩, ?_⟩
  exact brightness_roundtrip ⟨⟨25, 50, 75⟩, fun _ => "sqrt"⟩ 2 50 (by norm_num) (by norm_num)
    (by norm_num) (by norm_num) ⟨by norm_num, by norm_num, by norm_num, by norm_num⟩

/-! ### Coordinator state (base_coordinator.py / ha_coordinator.py) -/

/-- `LightState` dataclass: one light record. Brightness is the 0-255 value. -/
structure LightState where
  entityId : String
  stage : ℕ
  isOn : Bool
  brightness : ℕ
deriving DecidableEq, Repr

/-- Coordinator-owned state: `_is_on`, `_target_brightness`, `_lights`
(the dict is modelled as a list of records in registration order). -/
structure CoordState where
  isOn : Bool
  targetBrightness : ℕ
  lights : List LightState
deriving DecidableEq, Repr

/-- `target_brightness_pct` property: `(target / 255) * 100`. -/
noncomputable def targetBrightnessPct (st : CoordState) : ℝ :=
  (st.targetBrightness : ℝ) / 255 * 100

/-- `calculate_all_zone_brightness` builds the dict for stages 1..4; reading
it with `.get(stage, 0)` yields 0 outside that range. -/
noncomputable def calculateAllZoneBrightness (c : Calculator) (st : CoordState) (stage : ℕ) : ℝ :=
  if 1 ≤ stage ∧ stage ≤ 4 then calculateZoneBrightness c (targetBrightnessPct st) stage else 0

/-- Per-light body of the loops in `apply_brightness_to_lights` and
`apply_back_propagation`: positive stage percentage turns the light on at
`int(pct / 100 * 255)`, otherwise the light is forced off. -/
noncomputable def applyLightChange (zb : ℕ → ℝ) (l : LightState) : LightState × (String × ℕ) :=
  let pct := zb l.stage
  if 0 < pct then
    let nb := (⌊pct / 100 * 255⌋).toNat
    ({ l with isOn := true, brightness := nb }, (l.entityId, nb))
  else ({ l with isOn := false, brightness := 0 }, (l.entityId, 0))

/-- `BaseCombinedLightsCoordinator.apply_brightness_to_lights`. -/
noncomputable def applyBrightnessToLights (c : Calculator) (st : CoordState) :
    CoordState × List (String × ℕ) :=
  let zb := calculateAllZoneBrightness c st
  ({ st with lights := st.lights.map (fun l => (applyLightChange zb l).1) },
    st.lights.map (fun l => (applyLightChange zb l).2))

/-- `turn_on(brightness?)`: clamp the target if given, set ON, apply. -/
noncomputable def turnOn (c : Calculator) (st : CoordState) (brightness : Option ℕ) :
    CoordState × List (String × ℕ) :=
  let target := match brightness with
    | some b => max 1 (min 255 b)
    | none => st.targetBrightness
  applyBrightnessToLights c { st with targetBrightness := target, isOn := true }

/-- `turn_off()`: set OFF and zero every record. -/
def turnOff (st : CoordState) : CoordState × List (String × ℕ) :=
  ({ st with
      isOn := false
      lights := st.lights.map (fun l => { l with isOn := false, brightness := 0 }) },
    st.lights.map (fun l => (l.entityId, 0)))

/-- `set_light_brightness(entity_id, brightness)` (identical in the base and
HA coordinators): update the one record, recompute `is_on` as "any record
on", and re-derive the target from the single-light estimate. Returns the
new state, the applied change and the estimated overall percentage. -/
noncomputable def setLightBrightness (c : Calculator) (st : CoordState) (entityId : String)
    (brightness : ℕ) : CoordState × List (String × ℕ) × ℝ :=
  match st.lights.find? (fun l => l.entityId == entityId) with
  | none => (st, [], 0)
  | some light =>
    let lights' := st.lights.map (fun l =>
      if l.entityId = entityId then
        if 0 < brightness then { l with isOn := true, brightness := brightness }
        else { l with isOn := false, brightness := 0 }
      else l)
    let anyOn := lights'.any (fun l => l.isOn)
    let brightnessPct : ℝ := if 0 < brightness then (brightness : ℝ) / 255 * 100 else 0
    let overallPct : ℝ :=
      if anyOn then estimateOverallFromSingleLight c light.stage brightnessPct else 0
    let target := if anyOn
      then max 1 (min 255 (⌊overallPct / 100 * 255⌋).toNat)
      else st.targetBrightness
    ({ st with isOn := anyOn, targetBrightness := target, lights := lights' },
      [(entityId, brightness)], overallPct)

/-- `BaseCombinedLightsCoordinator.apply_back_propagation(exclude?)`: the base
class recomputes every non-excluded light from the current target without
checking `is_on` first. -/
noncomputable def applyBackPropagation (c : Calculator) (st : CoordState)
    (exclude : Option String) : CoordState × List (String × ℕ) :=
  let zb := calculateAllZoneBrightness c st
  ({ st with lights := st.lights.map (fun l =>
      if exclude = some l.entityId then l else (applyLightChange zb l).1) },
    (st.lights.filter (fun l => !(exclude == some l.entityId))).map
      (fun l => (applyLightChange zb l).2))

/-- `HACombinedLightsCoordinator.apply_back_propagation(exclude?)`: when the
system is off, force every non-excluded, not-already-off light off and
return only those zero changes; otherwise behave like the base version. -/
noncomputable def haApplyBackPropagation (c : Calculator) (st : CoordState)
    (exclude : Option String) : CoordState × List (String × ℕ) :=
  if st.isOn = false then
    ({ st with lights := st.lights.map (fun l =>
        if exclude = some l.entityId then l
        else if l.isOn = true ∨ 0 < l.brightness then { l with isOn := false, brightness := 0 }
        else l) },
      (st.lights.filter (fun l =>
        decide (¬ exclude = some l.entityId ∧ (l.isOn = true ∨ 0 < l.brightness)))).map
        (fun l => (l.entityId, 0)))
  else applyBackPropagation c st exclude

/-- C2 counterexample: the claim quantifies over both cited
`apply_back_propagation` implementations, but the base coordinator's version
has no off-guard. With the system off, default target 255 and one stage-1
light, it returns a positive brightness (255) and records the light as on. -/
theorem backprop_off_counterexample :
    (CoordState.mk false 255 [⟨"l1", 1, false, 0⟩]).isOn = false ∧
    (applyBackPropagation ⟨⟨30, 60, 85⟩, fun _ => "linear"⟩
      (CoordState.mk false 255 [⟨"l1", 1, false, 0⟩]) none).2 = [("l1", 255)] ∧
    (applyBackPropagation ⟨⟨30, 60, 85⟩, fun _ => "linear"⟩
      (CoordState.mk false 255 [⟨"l1", 1, false, 0⟩]) none).1.lights =
      [⟨"l1", 1, true, 255⟩] := by
  have hz : calculateZoneBrightness ⟨⟨30, 60, 85⟩, fun _ => "linear"⟩
      (targetBrightnessPct (CoordState.mk false 255 [⟨"l1", 1, false, 0⟩])) 1 = 100 := by
    simp only [calculateZoneBrightness, applyBrightnessCurve, targetBrightnessPct,
      Breakpoints.get]
    norm_num
  refine ⟨rfl, ?_, ?_⟩ <;>
  · simp only [applyBackPropagation, calculateAllZoneBrightness, applyLightChange,
      List.map, List.filter]
    norm_num [hz]
    decide

/-- C2 (amended): the HA coordinator's `apply_back_propagation` with the
system off returns only zero-brightness changes and leaves every
non-excluded light record off with brightness 0; the base coordinator's
version lacks this guard. -/
theorem ha_backprop_off_forces_off (c : Calculator) (st : CoordState) (exclude : Option String)
    (hoff : st.isOn = false) :
    (∀ p ∈ (haApplyBackPropagation c st exclude).2, p.2 = 0) ∧
    (∀ l ∈ (haApplyBackPropagation c st exclude).1.lights,
      exclude ≠ some l.entityId → l.isOn = false ∧ l.brightness = 0) := by
  unfold haApplyBackPropagation
  rw [if_pos hoff]
  constructor
  · intro p hp
    simp only [List.mem_map] at hp
    obtain ⟨l, _, hl⟩ := hp
    rw [← hl]
  · intro l hl hex
    simp only [List.mem_map] at hl
    obtain ⟨l0, _, hmap⟩ := hl
    by_cases hexc : exclude = some l0.entityId
    · rw [if_pos hexc] at hmap
      rw [← hmap] at hex
      exact absurd hexc hex
    · rw [if_neg hexc] at hmap
      by_cases hon : l0.isOn = true ∨ 0 < l0.brightness
      · rw [if_pos hon] at hmap
        rw [← hmap]
        exact ⟨rfl, rfl⟩
      · rw [if_neg hon] at hmap
        push_neg at hon
        rw [← hmap]
        exact ⟨Bool.not_eq_true _ ▸ hon.1, Nat.le_zero.mp hon.2⟩

/-- Witness for C2's amended theorem: one on light, one off light, excluding
nothing, with the system off. -/
theorem ha_backprop_off_forces_off_witness :
    (CoordState.mk false 200 [⟨"a", 1, true, 120⟩, ⟨"b", 2, false, 0⟩]).isOn = false ∧
    ((∀ p ∈ (haApplyBackPropagation ⟨⟨30, 60, 85⟩, fun _ => "linear"⟩
        (CoordState.mk false 200 [⟨"a", 1, true, 120⟩, ⟨"b", 2, false, 0⟩]) none).2, p.2 = 0) ∧
      (∀ l ∈ (haApplyBackPropagation ⟨⟨30, 60, 85⟩, fun _ => "linear"⟩
        (CoordState.mk false 200 [⟨"a", 1, true, 120⟩, ⟨"b", 2, false, 0⟩]) none).1.lights,
        none ≠ some l.entityId → l.isOn = false ∧ l.brightness = 0)) :=
  ⟨rfl, ha_backprop_off_forces_off ⟨⟨30, 60, 85⟩, fun _ => "linear"⟩
    (CoordState.mk false 200 [⟨"a", 1, true, 120⟩, ⟨"b", 2, false, 0⟩]) none rfl⟩

/-- C9: for a non-positive stage percentage the single-light inverse returns
the stage's activation point (0 for stage 1, `breakpoints[stage-2]`
otherwise); concretely, `set_light_brightness` on a stage-4 light with
brightness 0, while another light keeps the system on and breakpoints are
`[25, 50, 75]`, estimates exactly 75. -/
theorem off_light_inverse_activation (c : Calculator) (stage : ℕ) (pct : ℝ)
    (st : CoordState) (e : String) (l lon : LightState) (hpct : pct ≤ 0) :
    (stage = 1 → estimateOverallFromSingleLight c stage pct = 0) ∧
    (2 ≤ stage → stage ≤ 4 → estimateOverallFromSingleLight c stage pct = c.bp.get (stage - 2)) ∧
    (c.bp = ⟨25, 50, 75⟩ → st.lights.find? (fun l' => l'.entityId == e) = some l →
      l.stage = 4 → lon ∈ st.lights → lon.entityId ≠ e → lon.isOn = true →
      (setLightBrightness c st e 0).2.2 = 75) := by
  refine ⟨?_, ?_, ?_⟩
  · intro h1
    rw [estimateOverallFromSingleLight, if_pos hpct, if_pos h1]
  · intro h2 _
    rw [estimateOverallFromSingleLight, if_pos hpct, if_neg (by omega : ¬ stage = 1)]
  · intro hbp hfind hstage hmem hne hon
    simp only [setLightBrightness, hfind]
    norm_num
    split_ifs with hany
    · rw [hstage, estimateOverallFromSingleLight, if_pos le_rfl,
        if_neg (by norm_num : ¬ (4 : ℕ) = 1), hbp]
      rfl
    · exfalso
      apply hany
      exact ⟨lon, hmem, by rw [if_neg hne]; exact hon⟩

/-- Witness for C9: stage 4 at percentage 0, and the concrete two-light
coordinator where `l4` is zeroed while `l1` stays on. -/
theorem off_light_inverse_activation_witness :
    (0 : ℝ) ≤ 0 ∧
    estimateOverallFromSingleLight ⟨⟨25, 50, 75⟩, fun _ => "linear"⟩ 4 0 =
      Breakpoints.get ⟨25, 50, 75⟩ 2 ∧
    (setLightBrightness ⟨⟨25, 50, 75⟩, fun _ => "linear"⟩
      (CoordState.mk true 255 [⟨"l1", 1, true, 255⟩, ⟨"l4", 4, true, 200⟩]) "l4" 0).2.2 = 75 := by
  have h := off_light_inverse_activation ⟨⟨25, 50, 75⟩, fun _ => "linear"⟩ 4 0
    (CoordState.mk true 255 [⟨"l1", 1, true, 255⟩, ⟨"l4", 4, true, 200⟩]) "l4"
    ⟨"l4", 4, true, 200⟩ ⟨"l1", 1, true, 255⟩ le_rfl
  exact ⟨le_rfl, h.2.1 (by norm_num) (by norm_num),
    h.2.2 rfl rfl rfl (by simp) (by decide) rfl⟩

/-- C3 counterexample: the claimed capping in the inconsistent case does not
exist in the code. With stage 4 at 50 % and stages 1-3 off (so the off
stage 1 should, per the claim, force the result to 0), the code trusts
stage 4 and returns a value above 75. -/
lemma zonePick_inactive {zones : ℕ → Option ℝ} {s : ℕ} (h : ¬ ZoneActive zones s)
    (acc : ℕ × ℝ) : zonePick zones acc s = acc := by
  unfold ZoneActive at h
  unfold zonePick
  cases hz : zones s with
  | none => rfl
  | some b =>
    rw [hz] at h
    exact if_neg h

lemma zonePick_active {zones : ℕ → Option ℝ} {s : ℕ} {b : ℝ} (hz : zones s = some b)
    (hb : 0 < b) (acc : ℕ × ℝ) : zonePick zones acc s = (s, b) := by
  unfold zonePick
  rw [hz]
  exact if_pos hb

lemma reverseCurve_linear (y : ℝ) : reverseBrightnessCurve y "linear" = y := by
  unfold reverseBrightnessCurve
  rw [if_neg (by decide : ¬ ("linear" : String) = "quadratic"),
    if_neg (by decide : ¬ ("linear" : String) = "cubic"),
    if_neg (by decide : ¬ ("linear" : String) = "sqrt"),
    if_neg (by decide : ¬ ("linear" : String) = "cbrt")]

theorem zones_estimate_counterexample :
    ¬ ZoneActive (fun n => if n = 4 then some (50 : ℝ) else none) 1 ∧
    ZoneActive (fun n => if n = 4 then some (50 : ℝ) else none) 4 ∧
    estimateOverallFromZones ⟨⟨25, 50, 75⟩, fun _ => "linear"⟩
      (fun n => if n = 4 then some (50 : ℝ) else none) ≠ 0 := by
  refine ⟨by simp [ZoneActive], by simp [ZoneActive], ?_⟩
  have hz4 : (fun n => if n = 4 then some (50 : ℝ) else none) 4 = some 50 := rfl
  have hact : ∀ t, t ≠ 4 → ¬ ZoneActive (fun n => if n = 4 then some (50 : ℝ) else none) t := by
    intro t ht
    have : (if t = 4 then some (50 : ℝ) else none) = none := if_neg ht
    simp [ZoneActive, this]
  simp only [estimateOverallFromZones, List.foldl_cons, List.foldl_nil,
    zonePick_inactive (hact 1 (by norm_num)), zonePick_inactive (hact 2 (by norm_num)),
    zonePick_inactive (hact 3 (by norm_num)),
    @zonePick_active (fun n => if n = 4 then some (50 : ℝ) else none) 4 50 hz4 (by norm_num)]
  simp only [reverseStageBrightness, reverseCurve_linear, Breakpoints.get]
  norm_num

/-- C3 (amended): `estimate_overall_from_zones` returns 0 when no stage is
non-zero, and otherwise returns the single-light inverse applied to the
highest-numbered non-zero stage and its brightness — with no capping in the
inconsistent case: the higher stage is trusted even when a lower stage is
off. -/
theorem zones_estimate_highest_active (c : Calculator) (zones : ℕ → Option ℝ) :
    ((∀ s, 1 ≤ s → s ≤ 4 → ¬ ZoneActive zones s) → estimateOverallFromZones c zones = 0) ∧
    (∀ s b, 1 ≤ s → s ≤ 4 → zones s = some b → 0 < b →
      (∀ t, s < t → t ≤ 4 → ¬ ZoneActive zones t) →
      estimateOverallFromZones c zones = estimateOverallFromSingleLight c s b) := by
  constructor
  · intro h
    simp only [estimateOverallFromZones, List.foldl_cons, List.foldl_nil,
      zonePick_inactive (h 1 (by norm_num) (by norm_num)),
      zonePick_inactive (h 2 (by norm_num) (by norm_num)),
      zonePick_inactive (h 3 (by norm_num) (by norm_num)),
      zonePick_inactive (h 4 (by norm_num) (by norm_num))]
    norm_num
  · intro s b hs1 hs4 hz hb hrest
    rw [estimateOverallFromSingleLight, if_neg (not_le.mpr hb)]
    interval_cases s
    · simp only [estimateOverallFromZones, List.foldl_cons, List.foldl_nil,
        zonePick_active hz hb,
        zonePick_inactive (hrest 2 (by norm_num) (by norm_num)),
        zonePick_inactive (hrest 3 (by norm_num) (by norm_num)),
        zonePick_inactive (hrest 4 (by norm_num) (by norm_num))]
      norm_num
    · simp only [estimateOverallFromZones, List.foldl_cons, List.foldl_nil,
        zonePick_active hz hb,
        zonePick_inactive (hrest 3 (by norm_num) (by norm_num)),
        zonePick_inactive (hrest 4 (by norm_num) (by norm_num))]
      norm_num
    · simp only [estimateOverallFromZones, List.foldl_cons, List.foldl_nil,
        zonePick_active hz hb,
        zonePick_inactive (hrest 4 (by norm_num) (by norm_num))]
      norm_num
    · simp only [estimateOverallFromZones, List.foldl_cons, List.foldl_nil,
        zonePick_active hz hb]
      norm_num

/-- Witness for C3's amended theorem: stage 2 active at 30 %, stages 3-4 off. -/
theorem zones_estimate_highest_active_witness :
    ((fun n => if n = 2 then some (30 : ℝ) else none) 2 = some 30) ∧ (0 : ℝ) < 30 ∧
    (∀ t, 2 < t → t ≤ 4 → ¬ ZoneActive (fun n => if n = 2 then some (30 : ℝ) else none) t) ∧
    estimateOverallFromZones ⟨⟨25, 50, 75⟩, fun _ => "linear"⟩
        (fun n => if n = 2 then some (30 : ℝ) else none) =
      estimateOverallFromSingleLight ⟨⟨25, 50, 75⟩, fun _ => "linear"⟩ 2 30 := by
  have hrest : ∀ t, 2 < t → t ≤ 4 →
      ¬ ZoneActive (fun n => if n = 2 then some (30 : ℝ) else none) t := by
    intro t ht _
    have hne : (if t = 2 then some (30 : ℝ) else none) = none := if_neg (by omega)
    simp [ZoneActive, hne]
  exact ⟨rfl, by norm_num,
    hrest,
    (zones_estimate_highest_active ⟨⟨25, 50, 75⟩, fun _ => "linear"⟩
      (fun n => if n = 2 then some (30 : ℝ) else none)).2 2 30
      (by norm_num) (by norm_num) rfl (by norm_num) hrest⟩

/-! ### Manual change detector (manual_change_detector.py) -/

/-- A Home Assistant state as the detector reads it: the `state` string and
the optional `brightness` attribute. -/
structure StateObj where
  state : String
  brightness : Option ℤ
deriving DecidableEq, Repr

/-- A state-changed event: optional old/new states plus the context id. -/
structure LEvent where
  oldState : Option StateObj
  newState : Option StateObj
  contextId : Option String
deriving DecidableEq, Repr

/-- `ManualChangeDetector` mutable state: recent context ids, expected
brightness per entity, the updating flag and the pending-transitional map
(entity id to the timestamp recorded by `time.time()`). -/
structure Detector where
  recentContexts : List String
  expectedStates : List (String × ℤ)
  updatingLights : Bool
  pendingBrightness : List (String × ℚ)
deriving DecidableEq, Repr

/-- `self._brightness_tolerance = 5`. -/
def brightnessTolerance : ℤ := 5

/-- `self._pending_brightness_timeout = 2.0`. -/
def pendingBrightnessTimeout : ℚ := 2

/-- Python dict assignment `d[k] = v` on an association list. -/
def alInsert {α : Type} (l : List (String × α)) (k : String) (v : α) :
    List (String × α) :=
  (k, v) :: l.filter (fun p => p.1 != k)

/-- Python `del d[k]` on an association list. -/
def alErase {α : Type} (l : List (String × α)) (k : String) : List (String × α) :=
  l.filter (fun p => p.1 != k)

/-- `new_state.attributes.get("brightness") if new_state else None`. -/
def eventActualBrightness (ev : LEvent) : Option ℤ :=
  ev.newState.bind (fun s => s.brightness)

/-- `event.context and event.context.id in self._recent_contexts`. -/
def eventContextIsOurs (d : Detector) (ev : LEvent) : Bool :=
  match ev.contextId with
  | some c => d.recentContexts.contains c
  | none => false

/-- The transitional `off -> on @ brightness None/0` test of
`is_manual_change`. -/
def isTransitionalOnState (ev : LEvent) : Bool :=
  match ev.newState, ev.oldState with
  | some ns, some os =>
    ns.state == "on" &&
      (eventActualBrightness ev == none || eventActualBrightness ev == some 0) &&
      os.state == "off"
  | _, _ => false

/-- `new_state and new_state.state == "off"`. -/
def newStateIsOff (ev : LEvent) : Bool :=
  match ev.newState with
  | some ns => ns.state == "off"
  | none => false

/-- The tail of `is_manual_change` (manual_change_detector.py lines 112-157):
context match, expectation match/mismatch, updating flag, external fallback. -/
def classifyTail (d : Detector) (entityId : String) (ev : LEvent) :
    Bool × String × Detector :=
  let actual := eventActualBrightness ev
  let expected := d.expectedStates.lookup entityId
  if eventContextIsOurs d ev then
    let d' := match expected with
      | some _ => { d with expectedStates := alErase d.expectedStates entityId }
      | none => d
    (false, "recent_context_match", d')
  else
    match expected with
    | some exp =>
      let d' := { d with expectedStates := alErase d.expectedStates entityId }
      if newStateIsOff ev && exp == 0 then
        (false, "expected_off_state", d')
      else
        match actual with
        | some a =>
          if |a - exp| ≤ brightnessTolerance then
            (false, "expected_brightness_match", d')
          else (true, "brightness_mismatch", d')
        | none => (true, "brightness_mismatch", d')
    | none =>
      if d.updatingLights then (false, "integration_updating", d)
      else (true, "external_context", d)

/-- `ManualChangeDetector.is_manual_change(entity_id, event)` with the
current time passed explicitly (`time.time()` at the call). Returns the
classification, the reason string and the updated detector state. -/
def isManualChange (d : Detector) (entityId : String) (ev : LEvent) (now : ℚ) :
    Bool × String × Detector :=
  if isTransitionalOnState ev then
    (false, "transitional_on_state",
      { d with pendingBrightness := alInsert d.pendingBrightness entityId now })
  else
    match d.pendingBrightness.lookup entityId with
    | some pendingTime =>
      let d' := { d with pendingBrightness := alErase d.pendingBrightness entityId }
      if now - pendingTime ≤ pendingBrightnessTimeout then
        (true, "brightness_confirmation", d')
      else classifyTail d' entityId ev
    | none => classifyTail d entityId ev

lemma lookup_alInsert {α : Type} (l : List (String × α)) (k : String) (v : α) :
    (alInsert l k v).lookup k = some v := by
  simp [alInsert, List.lookup]

lemma lookup_alErase {α : Type} (l : List (String × α)) (k : String) :
    (alErase l k).lookup k = none := by
  induction l with
  | nil => rfl
  | cons p tl ih =>
    by_cases h : p.1 = k
    · simpa [alErase, List.filter_cons, h] using ih
    · have hbne : (p.1 != k) = true := by simpa using h
      have hbeq : (k == p.1) = false := by
        simpa using Ne.symm h
      simpa [alErase, List.filter_cons, hbne, List.lookup, hbeq] using ih

lemma classifyTail_pending (d : Detector) (entityId : String) (ev : LEvent) :
    (classifyTail d entityId ev).2.2.pendingBrightness = d.pendingBrightness := by
  simp only [classifyTail]
  split
  · split <;> rfl
  · split
    · split
      · rfl
      · split
        · split <;> rfl
        · rfl
    · split <;> rfl

/-- C5: a transitional `off -> on @ 0/absent` event is classified not-manual
with reason `transitional_on_state` and records the entity as pending; a
later non-transitional event for the same entity carrying a real brightness
within the 2-second timeout is classified manual with reason
`brightness_confirmation` and clears the pending entry, while one after the
timeout clears the entry and falls through to the normal classification
tail. -/
theorem transitional_then_confirmation (d : Detector) (e : String) (ev1 ev2 : LEvent)
    (t now2 : ℚ) (b : ℤ)
    (h1 : isTransitionalOnState ev1 = true)
    (h2 : isTransitionalOnState ev2 = false)
    (hb : eventActualBrightness ev2 = some b) :
    isManualChange d e ev1 t =
      (false, "transitional_on_state",
        { d with pendingBrightness := alInsert d.pendingBrightness e t }) ∧
    (alInsert d.pendingBrightness e t).lookup e = some t ∧
    (∀ d2 : Detector, d2.pendingBrightness = alInsert d.pendingBrightness e t →
      (now2 - t ≤ pendingBrightnessTimeout →
        isManualChange d2 e ev2 now2 =
          (true, "brightness_confirmation",
            { d2 with pendingBrightness := alErase d2.pendingBrightness e }) ∧
        (alErase d2.pendingBrightness e).lookup e = none) ∧
      (pendingBrightnessTimeout < now2 - t →
        isManualChange d2 e ev2 now2 =
          classifyTail { d2 with pendingBrightness := alErase d2.pendingBrightness e } e ev2 ∧
        (isManualChange d2 e ev2 now2).2.2.pendingBrightness.lookup e = none)) := by
  refine ⟨?_, lookup_alInsert _ _ _, ?_⟩
  · unfold isManualChange
    rw [if_pos h1]
  · intro d2 hd2
    have hlook : d2.pendingBrightness.lookup e = some t := by
      rw [hd2]
      exact lookup_alInsert _ _ _
    constructor
    · intro hle
      unfold isManualChange
      rw [if_neg (by simp [h2])]
      simp only [hlook]
      rw [if_pos hle]
      exact ⟨rfl, lookup_alErase _ _⟩
    · intro hgt
      have hm : isManualChange d2 e ev2 now2 =
          classifyTail { d2 with pendingBrightness := alErase d2.pendingBrightness e } e ev2 := by
        unfold isManualChange
        rw [if_neg (by simp [h2])]
        simp only [hlook]
        rw [if_neg (not_le.mpr hgt)]
      refine ⟨hm, ?_⟩
      rw [hm, classifyTail_pending]
      exact lookup_alErase _ _

/-- Witness for C5: an empty detector, a transitional event at `t = 0` and a
confirming brightness-200 event at `t = 1`. -/
theorem transitional_then_confirmation_witness :
    isTransitionalOnState ⟨some ⟨"off", none⟩, some ⟨"on", some 0⟩, some "c1"⟩ = true ∧
    isTransitionalOnState ⟨some ⟨"on", some 0⟩, some ⟨"on", some 200⟩, some "c2"⟩ = false ∧
    eventActualBrightness ⟨some ⟨"on", some 0⟩, some ⟨"on", some 200⟩, some "c2"⟩ = some 200 ∧
    isManualChange ⟨[], [], false, []⟩ "light.a"
        ⟨some ⟨"off", none⟩, some ⟨"on", some 0⟩, some "c1"⟩ 0 =
      (false, "transitional_on_state",
        { Detector.mk [] [] false [] with
            pendingBrightness := alInsert [] "light.a" 0 }) := by
  refine ⟨by decide, by decide, rfl, ?_⟩
  exact (transitional_then_confirmation ⟨[], [], false, []⟩ "light.a"
    ⟨some ⟨"off", none⟩, some ⟨"on", some 0⟩, some "c1"⟩
    ⟨some ⟨"on", some 0⟩, some ⟨"on", some 200⟩, some "c2"⟩ 0 1 200
    (by decide) (by decide) rfl).1

/-- C6: with an expectation tracked for the entity, no pending transitional
entry, and an event from a foreign context: a brightness within tolerance 5
(or an off state with 0 expected) classifies not-manual; a brightness beyond
tolerance, or a missing brightness, classifies manual; and the expectation
is removed in every case. -/
theorem expectation_matching (d : Detector) (e : String) (ev : LEvent) (now : ℚ) (exp : ℤ)
    (hpend : d.pendingBrightness.lookup e = none)
    (htrans : isTransitionalOnState ev = false)
    (hctx : eventContextIsOurs d ev = false)
    (hexp : d.expectedStates.lookup e = some exp) :
    (isManualChange d e ev now).2.2.expectedStates.lookup e = none ∧
    (∀ a, eventActualBrightness ev = some a → |a - exp| ≤ brightnessTolerance →
      (isManualChange d e ev now).1 = false) ∧
    (newStateIsOff ev = true → exp = 0 → (isManualChange d e ev now).1 = false) ∧
    (∀ a, eventActualBrightness ev = some a → brightnessTolerance < |a - exp| →
      ¬ (newStateIsOff ev = true ∧ exp = 0) → (isManualChange d e ev now).1 = true) ∧
    (eventActualBrightness ev = none → ¬ (newStateIsOff ev = true ∧ exp = 0) →
      (isManualChange d e ev now).1 = true) := by
  have hcls : isManualChange d e ev now = classifyTail d e ev := by
    unfold isManualChange
    rw [if_neg (by simp [htrans])]
    simp only [hpend]
  rw [hcls]
  unfold classifyTail
  simp only [hctx, hexp, Bool.false_eq_true, if_false]
  refine ⟨?_, ?_, ?_, ?_, ?_⟩
  · split
    · exact lookup_alErase _ _
    · split
      · split <;> exact lookup_alErase _ _
      · exact lookup_alErase _ _
  · intro a ha htol
    simp only [ha]
    split
    · rfl
    · first
      | rfl
      | rw [if_pos htol]
  · intro hoff h0
    rw [if_pos (by simp [hoff, h0])]
  · intro a ha htol hnot
    simp only [ha]
    rw [if_neg ?hcond]
    · rw [if_neg (not_le.mpr htol)]
    case hcond =>
      intro hand
      rcases Bool.and_eq_true_iff.mp hand with ⟨ho, he⟩
      exact hnot ⟨ho, by simpa using he⟩
  · intro ha hnot
    simp only [ha]
    rw [if_neg ?hcond2]
    case hcond2 =>
      intro hand
      rcases Bool.and_eq_true_iff.mp hand with ⟨ho, he⟩
      exact hnot ⟨ho, by simpa using he⟩

/-- Witness for C6: expectation `light.a -> 200`, a foreign-context event
carrying brightness 200 classifies not-manual. -/
theorem expectation_matching_witness :
    (Detector.mk [] [("light.a", 200)] false []).pendingBrightness.lookup "light.a" = none ∧
    isTransitionalOnState ⟨some ⟨"on", some 100⟩, some ⟨"on", some 200⟩, some "x"⟩ = false ∧
    eventContextIsOurs ⟨[], [("light.a", 200)], false, []⟩
      ⟨some ⟨"on", some 100⟩, some ⟨"on", some 200⟩, some "x"⟩ = false ∧
    (Detector.mk [] [("light.a", 200)] false []).expectedStates.lookup "light.a" = some 200 ∧
    (isManualChange ⟨[], [("light.a", 200)], false, []⟩ "light.a"
      ⟨some ⟨"on", some 100⟩, some ⟨"on", some 200⟩, some "x"⟩ 0).1 = false ∧
    (isManualChange ⟨[], [("light.a", 200)], false, []⟩ "light.a"
      ⟨some ⟨"on", some 100⟩, some ⟨"on", some 200⟩, some "x"⟩ 0).2.2.expectedStates.lookup
      "light.a" = none := by
  have h := expectation_matching ⟨[], [("light.a", 200)], false, []⟩ "light.a"
    ⟨some ⟨"on", some 100⟩, some ⟨"on", some 200⟩, some "x"⟩ 0 200
    rfl (by decide) (by decide) rfl
  exact ⟨rfl, by decide, by decide, rfl,
    h.2.1 200 rfl (by decide), h.1⟩

/-! ### Debounce-batch flush (light.py `_async_process_manual_changes`) -/

/-- A Home Assistant entity state as read by `sync_light_state_from_ha`. -/
inductive HAState where
  | on (brightness : Option ℕ)
  | off
  | unavailable
  | unknown
deriving DecidableEq, Repr

/-- `HACombinedLightsCoordinator.sync_light_state_from_ha`: missing,
unavailable or unknown states are skipped; an `on` state reads
`attributes.get("brightness", 255) or 255` (absent or 0 becomes 255);
anything else forces the record off. -/
def syncLightStateFromHA (hass : String → Option HAState) (l : LightState) : LightState :=
  match hass l.entityId with
  | none => l
  | some HAState.unavailable => l
  | some HAState.unknown => l
  | some (HAState.on b) =>
    { l with
        isOn := true
        brightness := match b with
          | some n => if n = 0 then 255 else n
          | none => 255 }
  | some HAState.off => { l with isOn := false, brightness := 0 }

/-- `sync_all_lights_from_ha`: sync every record, then recompute `_is_on`
as "any record on". -/
def syncAllLightsFromHA (hass : String → Option HAState) (st : CoordState) : CoordState :=
  let lights' := st.lights.map (syncLightStateFromHA hass)
  { st with lights := lights', isOn := lights'.any (fun l => l.isOn) }

/-- The zone dict built by `_estimate_overall_from_current_lights`: each
light writes its stage's entry (later lights overwrite earlier ones), a lit
light contributing its `brightness_pct` and anything else `None`. -/
noncomputable def zonesFromLights (lights : List LightState) : ℕ → Option ℝ :=
  lights.foldl
    (fun z l => fun s =>
      if s = l.stage then
        (if l.isOn = true ∧ 0 < l.brightness then some ((l.brightness : ℝ) / 255 * 100)
         else none)
      else z s)
    (fun _ => none)

/-- `_estimate_overall_from_current_lights`. -/
noncomputable def estimateOverallFromCurrentLights (c : Calculator) (st : CoordState) : ℝ :=
  estimateOverallFromZones c (zonesFromLights st.lights)

/-- Python set equality of two id collections. -/
def sameSet (a b : List String) : Bool :=
  a.all (fun x => b.contains x) && b.all (fun x => a.contains x)

/-- `CombinedLight._async_process_manual_changes` after the debounce sleep:
given the snapshot of queued changes, the host states and the
back-propagation flag, return the resulting coordinator state and whether a
back-propagation change set was computed and scheduled. -/
noncomputable def processManualChanges (c : Calculator) (hass : String → Option HAState)
    (backPropEnabled : Bool) (changes : List (String × ℕ)) (st : CoordState) :
    CoordState × Bool :=
  if changes.isEmpty then (st, false)
  else
    let allOff := changes.all (fun p => p.2 == 0)
    let st1 := syncAllLightsFromHA hass st
    if allOff && sameSet (changes.map Prod.fst) (st.lights.map (fun l => l.entityId)) then
      ((turnOff st1).1, false)
    else if st1.isOn = false then
      ((turnOff st1).1, false)
    else
      let overallPct := estimateOverallFromCurrentLights c st1
      let st2 := if 0 < overallPct then
          { st1 with
              targetBrightness := max 1 (min 255 (⌊overallPct / 100 * 255⌋).toNat)
              isOn := true }
        else st1
      if backPropEnabled then
        let r := haApplyBackPropagation c st2 none
        (r.1, !r.2.isEmpty)
      else (st2, false)

lemma sameSet_refl (a : List String) : sameSet a a = true := by
  simp only [sameSet, Bool.and_self, List.all_eq_true]
  intro x hx
  simpa [List.contains] using hx

/-- C4: when an off change is queued for every controlled light and the batch
flushes, the coordinator ends up off and no back-propagation is computed or
scheduled, whatever the host states and even with back-propagation enabled. -/
theorem alloff_batch_forces_off (c : Calculator) (hass : String → Option HAState)
    (backPropEnabled : Bool) (st : CoordState) (changes : List (String × ℕ))
    (hne : st.lights ≠ [])
    (hall : ∀ l ∈ st.lights, l.isOn = true)
    (hch : changes = st.lights.map (fun l => (l.entityId, 0))) :
    (processManualChanges c hass backPropEnabled changes st).1.isOn = false ∧
    (processManualChanges c hass backPropEnabled changes st).2 = false := by
  subst hch
  have hempty : (st.lights.map (fun l => (l.entityId, (0 : ℕ)))).isEmpty = false := by
    cases hL : st.lights with
    | nil => exact absurd hL hne
    | cons a tl => rfl
  have halloff : (st.lights.map (fun l => (l.entityId, (0 : ℕ)))).all
      (fun p => p.2 == 0) = true := by
    simp [List.all_map, Function.comp]
  have hkeys : (st.lights.map (fun l => (l.entityId, (0 : ℕ)))).map Prod.fst =
      st.lights.map (fun l => l.entityId) := by
    simp [List.map_map, Function.comp]
  unfold processManualChanges
  rw [if_neg (by simp [hempty])]
  rw [if_pos (by rw [halloff, hkeys, sameSet_refl]; rfl)]
  exact ⟨rfl, rfl⟩

/-- Witness for C4: two lights, both on, both queued off, back-propagation
enabled, with the host reporting both off. -/
theorem alloff_batch_forces_off_witness :
    ((CoordState.mk true 255 [⟨"a", 1, true, 200⟩, ⟨"b", 2, true, 150⟩]).lights ≠ []) ∧
    (∀ l ∈ (CoordState.mk true 255 [⟨"a", 1, true, 200⟩, ⟨"b", 2, true, 150⟩]).lights,
      l.isOn = true) ∧
    (processManualChanges ⟨⟨30, 60, 85⟩, fun _ => "linear"⟩ (fun _ => some HAState.off) true
      [("a", 0), ("b", 0)]
      (CoordState.mk true 255 [⟨"a", 1, true, 200⟩, ⟨"b", 2, true, 150⟩])).1.isOn = false ∧
    (processManualChanges ⟨⟨30, 60, 85⟩, fun _ => "linear"⟩ (fun _ => some HAState.off) true
      [("a", 0), ("b", 0)]
      (CoordState.mk true 255 [⟨"a", 1, true, 200⟩, ⟨"b", 2, true, 150⟩])).2 = false := by
  have h := alloff_batch_forces_off ⟨⟨30, 60, 85⟩, fun _ => "linear"⟩
    (fun _ => some HAState.off) true
    (CoordState.mk true 255 [⟨"a", 1, true, 200⟩, ⟨"b", 2, true, 150⟩])
    [("a", 0), ("b", 0)] (by decide) (by decide) rfl
  exact ⟨by decide, by decide, h.1, h.2⟩

/-! ### Light-record consistency invariant (C10) -/

/-- `BaseCombinedLightsCoordinator.reset()`: back to OFF, default target 255,
all records zeroed. -/
def resetCoord (st : CoordState) : CoordState :=
  { st with
      isOn := false
      targetBrightness := 255
      lights := st.lights.map (fun l => { l with isOn := false, brightness := 0 }) }

/-- The base-coordinator operations the invariant claim ranges over. -/
inductive CoordOp where
  | turnOnOp (brightness : Option ℕ)
  | turnOffOp
  | setLight (entityId : String) (brightness : ℕ)
  | applyOp
  | backPropOp (exclude : Option String)
  | resetOp
deriving DecidableEq, Repr

/-- One base-coordinator operation applied to the state. -/
noncomputable def runOp (c : Calculator) (st : CoordState) : CoordOp → CoordState
  | .turnOnOp b => (turnOn c st b).1
  | .turnOffOp => (turnOff st).1
  | .setLight e b => (setLightBrightness c st e b).1
  | .applyOp => (applyBrightnessToLights c st).1
  | .backPropOp ex => (applyBackPropagation c st ex).1
  | .resetOp => resetCoord st

/-- A sequence of operations applied in order. -/
noncomputable def runOps (c : Calculator) (st : CoordState) (ops : List CoordOp) : CoordState :=
  ops.foldl (runOp c) st

/-- The invariant: a record is on exactly when its brightness is positive. -/
def LightsConsistent (st : CoordState) : Prop :=
  ∀ l ∈ st.lights, l.isOn = true ↔ 0 < l.brightness

/-- Brightness arguments supplied to operations stay in 0-255. -/
def ValidOp : CoordOp → Prop
  | .turnOnOp (some b) => b ≤ 255
  | .setLight _ b => b ≤ 255
  | _ => True

lemma one_le_one_add_curve (y : ℝ) (k : String) :
    1 ≤ 1 + applyBrightnessCurve (max 0 y) k * 99 := by
  have hc := applyCurve_nonneg (le_max_left 0 y) k
  nlinarith

lemma calculateZoneBrightness_zero_or_ge_one (c : Calculator) (p : ℝ) (s : ℕ) :
    calculateZoneBrightness c p s = 0 ∨ 1 ≤ calculateZoneBrightness c p s := by
  simp only [calculateZoneBrightness]
  split_ifs <;>
    first
      | exact Or.inl rfl
      | exact Or.inr (one_le_one_add_curve _ _)
      | exact Or.inr (by norm_num)

lemma allZB_zero_or_ge_one (c : Calculator) (st : CoordState) (s : ℕ) :
    calculateAllZoneBrightness c st s = 0 ∨ 1 ≤ calculateAllZoneBrightness c st s := by
  unfold calculateAllZoneBrightness
  split_ifs
  · exact calculateZoneBrightness_zero_or_ge_one c (targetBrightnessPct st) s
  · exact Or.inl rfl

lemma applyLightChange_consistent (zb : ℕ → ℝ) (l : LightState)
    (hz : ∀ s, zb s = 0 ∨ 1 ≤ zb s) :
    ((applyLightChange zb l).1.isOn = true ↔ 0 < (applyLightChange zb l).1.brightness) := by
  simp only [applyLightChange]
  split_ifs with h
  · rcases hz l.stage with h0 | h1
    · rw [h0] at h
      exact absurd h (lt_irrefl 0)
    · have hfl : (2 : ℤ) ≤ ⌊zb l.stage / 100 * 255⌋ := by
        apply Int.le_floor.mpr
        push_cast
        nlinarith
      constructor
      · intro _
        show 0 < (⌊zb l.stage / 100 * 255⌋).toNat
        omega
      · intro _
        rfl
  · simp

lemma applyBrightness_consistent (c : Calculator) (st : CoordState) :
    LightsConsistent (applyBrightnessToLights c st).1 := by
  intro l hl
  simp only [applyBrightnessToLights, List.mem_map] at hl
  obtain ⟨l0, _, rfl⟩ := hl
  exact applyLightChange_consistent _ l0 (allZB_zero_or_ge_one c st)

lemma runOp_consistent (c : Calculator) (st : CoordState) (op : CoordOp)
    (hinv : LightsConsistent st) :
    LightsConsistent (runOp c st op) := by
  cases op with
  | turnOnOp b =>
    simp only [runOp, turnOn]
    exact applyBrightness_consistent c _
  | turnOffOp =>
    intro l hl
    simp only [runOp, turnOff, List.mem_map] at hl
    obtain ⟨l0, _, rfl⟩ := hl
    simp
  | setLight e b =>
    simp only [runOp, setLightBrightness]
    cases hf : st.lights.find? (fun l => l.entityId == e) with
    | none =>
      simp only [hf]
      exact hinv
    | some light =>
      simp only [hf]
      intro l hl
      simp only [List.mem_map] at hl
      obtain ⟨l0, hl0, rfl⟩ := hl
      by_cases he : l0.entityId = e
      · rw [if_pos he]
        by_cases hb : 0 < b
        · rw [if_pos hb]
          simpa using hb
        · rw [if_neg hb]
          simp
      · rw [if_neg he]
        exact hinv l0 hl0
  | applyOp =>
    exact applyBrightness_consistent c st
  | backPropOp ex =>
    intro l hl
    simp only [runOp, applyBackPropagation, List.mem_map] at hl
    obtain ⟨l0, hl0, rfl⟩ := hl
    by_cases hex : ex = some l0.entityId
    · rw [if_pos hex]
      exact hinv l0 hl0
    · rw [if_neg hex]
      exact applyLightChange_consistent _ l0 (allZB_zero_or_ge_one c st)
  | resetOp =>
    intro l hl
    simp only [runOp, resetCoord, List.mem_map] at hl
    obtain ⟨l0, _, rfl⟩ := hl
    simp

/-- C10: along every sequence of base-coordinator operations with brightness
arguments in 0-255, every light record stays consistent: it is recorded on
exactly when its brightness is positive. -/
theorem light_record_consistency (c : Calculator) (st : CoordState) (ops : List CoordOp)
    (hinv : LightsConsistent st) (hval : ∀ op ∈ ops, ValidOp op) :
    LightsConsistent (runOps c st ops) := by
  induction ops generalizing st with
  | nil => exact hinv
  | cons op tl ih =>
    have hstep : LightsConsistent (runOp c st op) := runOp_consistent c st op hinv
    have htl : ∀ o ∈ tl, ValidOp o := fun o ho => hval o (List.mem_cons_of_mem _ ho)
    exact ih (runOp c st op) hstep htl

/-- Witness for C10: a fresh two-light coordinator, turn on at 200, set one
light to 128, then back-propagate. -/
theorem light_record_consistency_witness :
    LightsConsistent (CoordState.mk false 255 [⟨"a", 1, false, 0⟩, ⟨"b", 4, false, 0⟩]) ∧
    (∀ op ∈ [CoordOp.turnOnOp (some 200), CoordOp.setLight "a" 128,
        CoordOp.backPropOp (some "a")], ValidOp op) ∧
    LightsConsistent (runOps ⟨⟨30, 60, 85⟩, fun _ => "linear"⟩
      (CoordState.mk false 255 [⟨"a", 1, false, 0⟩, ⟨"b", 4, false, 0⟩])
      [CoordOp.turnOnOp (some 200), CoordOp.setLight "a" 128,
        CoordOp.backPropOp (some "a")]) := by
  have hval : ∀ op ∈ [CoordOp.turnOnOp (some 200), CoordOp.setLight "a" 128,
      CoordOp.backPropOp (some "a")], ValidOp op := by
    intro op hop
    rcases hop with _ | ⟨_, _ | ⟨_, _ | ⟨_, h⟩⟩⟩
    · exact (by norm_num : (200 : ℕ) ≤ 255)
    · exact (by norm_num : (128 : ℕ) ≤ 255)
    · trivial
    · cases h
  have hinv : LightsConsistent
      (CoordState.mk false 255 [⟨"a", 1, false, 0⟩, ⟨"b", 4, false, 0⟩]) := by
    intro l hl
    rcases hl with _ | ⟨_, _ | ⟨_, h⟩⟩
    · simp
    · simp
    · cases h
  exact ⟨hinv, hval, light_record_consistency ⟨⟨30, 60, 85⟩, fun _ => "linear"⟩
    (CoordState.mk false 255 [⟨"a", 1, false, 0⟩, ⟨"b", 4, false, 0⟩])
    [CoordOp.turnOnOp (some 200), CoordOp.setLight "a" 128,
      CoordOp.backPropOp (some "a")] hinv hval⟩

/-! ### The legacy blended curve family (brightness_calculator.py) -/

/-- `BrightnessCalculator._apply_brightness_curve`: below progress 0.1 blend
linearly toward the root, above it use a fixed linear combination; curve
kinds other than quadratic/cubic are linear. -/
noncomputable def applyBlendedCurve (progress : ℝ) (curveType : String) : ℝ :=
  if curveType = "quadratic" then
    if progress < 0.1 then progress * 0.9 + progress ^ ((1 : ℝ) / 2) * 0.1
    else 0.4 * progress + 0.6 * progress ^ ((1 : ℝ) / 2)
  else if curveType = "cubic" then
    if progress < 0.1 then progress * 0.8 + progress ^ ((1 : ℝ) / 3) * 0.2
    else 0.2 * progress + 0.8 * progress ^ ((1 : ℝ) / 3)
  else progress

/-- One Newton step of `_reverse_brightness_curve` for the quadratic blend:
`x := max(0, x - f(x)/f'(x))` with `f'(x) = 0.4 + 0.3/sqrt(x)` for positive
`x`, else 1. -/
noncomputable def newtonQuadStep (curvedValue x : ℝ) : ℝ :=
  let fx := 0.4 * x + 0.6 * x ^ ((1 : ℝ) / 2) - curvedValue
  let fpx := if 0 < x then 0.4 + 0.3 / x ^ ((1 : ℝ) / 2) else 1
  max 0 (x - fx / fpx)

/-- One Newton step for the cubic blend. -/
noncomputable def newtonCubeStep (curvedValue x : ℝ) : ℝ :=
  let fx := 0.2 * x + 0.8 * x ^ ((1 : ℝ) / 3) - curvedValue
  let fpx := if 0 < x then 0.2 + (0.8 / 3) / x ^ ((2 : ℝ) / 3) else 1
  max 0 (x - fx / fpx)

/-- `BrightnessCalculator._reverse_brightness_curve`: below 0.1 an
approximate linear division, above it 5 Newton iterations seeded at the
curved value. -/
noncomputable def reverseBlendedCurve (curvedValue : ℝ) (curveType : String) : ℝ :=
  if curveType = "quadratic" then
    if curvedValue < 0.1 then curvedValue / 0.95
    else (newtonQuadStep curvedValue)^[5] curvedValue
  else if curveType = "cubic" then
    if curvedValue < 0.1 then curvedValue / 0.9
    else (newtonCubeStep curvedValue)^[5] curvedValue
  else curvedValue

/-- The power family's reverse applied after its forward curve is the
identity on `[0, ∞)`. -/
lemma reverseCurve_applyCurve {x : ℝ} (hx : 0 ≤ x) (k : String) :
    reverseBrightnessCurve (applyBrightnessCurve x k) k = x := by
  unfold applyBrightnessCurve reverseBrightnessCurve
  split_ifs
  · rw [show x * x = x ^ ((2 : ℕ) : ℝ) by rw [Real.rpow_natCast]; ring,
      ← Real.rpow_mul hx]
    norm_num
  · rw [show x * x * x = x ^ ((3 : ℕ) : ℝ) by rw [Real.rpow_natCast]; ring,
      ← Real.rpow_mul hx]
    norm_num
  · rw [show (x ^ ((1 : ℝ) / 2)) ^ (2 : ℕ) = (x ^ ((1 : ℝ) / 2)) ^ ((2 : ℕ) : ℝ) by
      rw [Real.rpow_natCast], ← Real.rpow_mul hx]
    norm_num
  · rw [show (x ^ ((1 : ℝ) / 3)) ^ (3 : ℕ) = (x ^ ((1 : ℝ) / 3)) ^ ((3 : ℕ) : ℝ) by
      rw [Real.rpow_natCast], ← Real.rpow_mul hx]
    norm_num
  · rfl

lemma applyCurve_mono {x y : ℝ} (hx0 : 0 ≤ x) (hxy : x ≤ y) (k : String) :
    applyBrightnessCurve x k ≤ applyBrightnessCurve y k := by
  have hy0 : 0 ≤ y := le_trans hx0 hxy
  unfold applyBrightnessCurve
  split_ifs
  · exact mul_le_mul hxy hxy hx0 hy0
  · calc x * x * x = x ^ 3 := by ring
      _ ≤ y ^ 3 := pow_le_pow_left hx0 hxy 3
      _ = y * y * y := by ring
  · exact Real.rpow_le_rpow hx0 hxy (by norm_num)
  · exact Real.rpow_le_rpow hx0 hxy (by norm_num)
  · exact hxy

lemma applyCurve_zero (k : String) : applyBrightnessCurve 0 k = 0 := by
  unfold applyBrightnessCurve
  split_ifs
  · ring
  · ring
  · exact Real.zero_rpow (by norm_num)
  · exact Real.zero_rpow (by norm_num)
  · rfl

lemma applyCurve_one (k : String) : applyBrightnessCurve 1 k = 1 := by
  unfold applyBrightnessCurve
  split_ifs
  · ring
  · ring
  · exact Real.one_rpow _
  · exact Real.one_rpow _
  · rfl

lemma blended_zero (k : String) : applyBlendedCurve 0 k = 0 := by
  unfold applyBlendedCurve
  split_ifs <;>
    first
      | (rw [Real.zero_rpow (by norm_num)]; ring)
      | norm_num

lemma blended_one (k : String) : applyBlendedCurve 1 k = 1 := by
  unfold applyBlendedCurve
  split_ifs <;>
    first
      | (rw [Real.one_rpow]; norm_num)
      | norm_num
      | rfl

lemma blended_nonneg {x : ℝ} (hx : 0 ≤ x) (k : String) : 0 ≤ applyBlendedCurve x k := by
  have hr2 : 0 ≤ x ^ ((1 : ℝ) / 2) := Real.rpow_nonneg hx _
  have hr3 : 0 ≤ x ^ ((1 : ℝ) / 3) := Real.rpow_nonneg hx _
  unfold applyBlendedCurve
  split_ifs <;> nlinarith

lemma blended_le_one {x : ℝ} (hx0 : 0 ≤ x) (hx1 : x ≤ 1) (k : String) :
    applyBlendedCurve x k ≤ 1 := by
  have hr2 : x ^ ((1 : ℝ) / 2) ≤ 1 := Real.rpow_le_one hx0 hx1 (by norm_num)
  have hr3 : x ^ ((1 : ℝ) / 3) ≤ 1 := Real.rpow_le_one hx0 hx1 (by norm_num)
  unfold applyBlendedCurve
  split_ifs <;> nlinarith

/-- Lower bound on a root: `a^3 ≤ b` with `a ≥ 0` gives `a ≤ b^(1/3)`. -/
lemma le_rpow_third {a b : ℝ} (ha : 0 ≤ a) (h : a ^ (3 : ℕ) ≤ b) :
    a ≤ b ^ ((1 : ℝ) / 3) := by
  have hb : 0 ≤ b := le_trans (by positivity) h
  have hmono := Real.rpow_le_rpow (by positivity) h (by norm_num : (0 : ℝ) ≤ 1 / 3)
  rwa [show (a ^ (3 : ℕ) : ℝ) = a ^ ((3 : ℕ) : ℝ) by rw [Real.rpow_natCast],
    ← Real.rpow_mul ha, show ((3 : ℕ) : ℝ) * (1 / 3) = 1 by norm_num,
    Real.rpow_one] at hmono

lemma blended_mono {x y : ℝ} (hx0 : 0 ≤ x) (hy1 : y ≤ 1) (hxy : x ≤ y) (k : String) :
    applyBlendedCurve x k ≤ applyBlendedCurve y k := by
  have hy0 : 0 ≤ y := le_trans hx0 hxy
  have hs : x ^ ((1 : ℝ) / 2) ≤ y ^ ((1 : ℝ) / 2) :=
    Real.rpow_le_rpow hx0 hxy (by norm_num)
  have ht : x ^ ((1 : ℝ) / 3) ≤ y ^ ((1 : ℝ) / 3) :=
    Real.rpow_le_rpow hx0 hxy (by norm_num)
  unfold applyBlendedCurve
  split_ifs with hk1 hxs hys hys hk2 hxs' hys' hys'
  · -- quadratic, both below 0.1
    nlinarith
  · -- quadratic, x below, y at or above 0.1
    push_neg at hys
    have hxw : x ^ ((1 : ℝ) / 2) ≤ Real.sqrt 0.1 := by
      rw [Real.sqrt_eq_rpow]
      exact Real.rpow_le_rpow hx0 (le_of_lt hxs) (by norm_num)
    have hyw : Real.sqrt 0.1 ≤ y ^ ((1 : ℝ) / 2) := by
      rw [Real.sqrt_eq_rpow]
      exact Real.rpow_le_rpow (by norm_num) hys (by norm_num)
    have hw : (0.3 : ℝ) ≤ Real.sqrt 0.1 := by
      rw [show (0.3 : ℝ) = Real.sqrt (0.3 ^ 2) by
        rw [Real.sqrt_sq (by norm_num)]]
      exact Real.sqrt_le_sqrt (by norm_num)
    nlinarith
  · -- quadratic, x at or above 0.1, y below: impossible
    push_neg at hxs
    linarith
  · -- quadratic, both at or above 0.1
    nlinarith
  · -- cubic, both below 0.1
    nlinarith
  · -- cubic, x below, y at or above 0.1
    push_neg at hys'
    have hxw : x ^ ((1 : ℝ) / 3) ≤ (0.1 : ℝ) ^ ((1 : ℝ) / 3) :=
      Real.rpow_le_rpow hx0 (le_of_lt hxs') (by norm_num)
    have hyw : (0.1 : ℝ) ^ ((1 : ℝ) / 3) ≤ y ^ ((1 : ℝ) / 3) :=
      Real.rpow_le_rpow (by norm_num) hys' (by norm_num)
    have hw : (0.4 : ℝ) ≤ (0.1 : ℝ) ^ ((1 : ℝ) / 3) :=
      le_rpow_third (by norm_num) (by norm_num)
    nlinarith
  · -- cubic, x at or above 0.1, y below: impossible
    push_neg at hxs'
    linarith
  · -- cubic, both at or above 0.1
    nlinarith
  · exact hxy

/-- C7 counterexample: for the blended quadratic curve at `x = 0.02` the
inverse round-trip misses by more than 0.01 (the low-range reverse divides
by 0.95, but the forward blend is nowhere near linear there). -/
theorem curve_inverse_counterexample :
    ¬ |reverseBlendedCurve (applyBlendedCurve 0.02 "quadratic") "quadratic" - 0.02| ≤ 0.01 := by
  have hs_lo : (0.105 : ℝ) < (0.02 : ℝ) ^ ((1 : ℝ) / 2) := by
    rw [← Real.sqrt_eq_rpow]
    rw [show (0.02 : ℝ) = 0.02 from rfl]
    exact (Real.lt_sqrt (by norm_num)).mpr (by norm_num)
  have hs_hi : (0.02 : ℝ) ^ ((1 : ℝ) / 2) < 0.15 := by
    rw [← Real.sqrt_eq_rpow]
    exact (Real.sqrt_lt' (by norm_num)).mpr (by norm_num)
  have happ : applyBlendedCurve 0.02 "quadratic" =
      0.02 * 0.9 + (0.02 : ℝ) ^ ((1 : ℝ) / 2) * 0.1 := by
    unfold applyBlendedCurve
    rw [if_pos rfl, if_pos (by norm_num)]
  have hlt : applyBlendedCurve 0.02 "quadratic" < 0.1 := by
    rw [happ]
    nlinarith
  have hrev : reverseBlendedCurve (applyBlendedCurve 0.02 "quadratic") "quadratic" =
      applyBlendedCurve 0.02 "quadratic" / 0.95 := by
    unfold reverseBlendedCurve
    rw [if_pos rfl, if_pos hlt]
  rw [hrev, happ]
  apply not_le.mpr
  calc (0.01 : ℝ)
      < (0.02 * 0.9 + (0.02 : ℝ) ^ ((1 : ℝ) / 2) * 0.1) / 0.95 - 0.02 := by
        rw [lt_sub_iff_add_lt, lt_div_iff (by norm_num : (0 : ℝ) < 0.95)]
        nlinarith
    _ ≤ |(0.02 * 0.9 + (0.02 : ℝ) ^ ((1 : ℝ) / 2) * 0.1) / 0.95 - 0.02| := le_abs_self _

/-- C7 (amended): for every curve kind and `x ≤ y` in `[0, 1]`, the power
family's forward curve stays in `[0, 1]`, is monotone, fixes 0 and 1, and
its inverse recovers `x` exactly; the blended family's forward curve also
stays in `[0, 1]`, is monotone and fixes 0 and 1 — but its inverse
round-trip is not within 0.01 everywhere. -/
theorem curve_contract (k : String) (x y : ℝ)
    (hx0 : 0 ≤ x) (hx1 : x ≤ 1) (hy1 : y ≤ 1) (hxy : x ≤ y) :
    (0 ≤ applyBrightnessCurve x k ∧ applyBrightnessCurve x k ≤ 1) ∧
    applyBrightnessCurve x k ≤ applyBrightnessCurve y k ∧
    applyBrightnessCurve 0 k = 0 ∧
    applyBrightnessCurve 1 k = 1 ∧
    reverseBrightnessCurve (applyBrightnessCurve x k) k = x ∧
    (0 ≤ applyBlendedCurve x k ∧ applyBlendedCurve x k ≤ 1) ∧
    applyBlendedCurve x k ≤ applyBlendedCurve y k ∧
    applyBlendedCurve 0 k = 0 ∧
    applyBlendedCurve 1 k = 1 :=
  ⟨⟨applyCurve_nonneg hx0 k, applyCurve_le_one hx0 hx1 k⟩,
    applyCurve_mono hx0 hxy k,
    applyCurve_zero k,
    applyCurve_one k,
    reverseCurve_applyCurve hx0 k,
    ⟨blended_nonneg hx0 k, blended_le_one hx0 hx1 k⟩,
    blended_mono hx0 hy1 hxy k,
    blended_zero k,
    blended_one k⟩

/-- Witness for C7's amended theorem: the sqrt curve at `x = 1/4 ≤ y = 1/2`. -/
theorem curve_contract_witness :
    (0 : ℝ) ≤ 1 / 4 ∧ (1 / 4 : ℝ) ≤ 1 ∧ (1 / 2 : ℝ) ≤ 1 ∧ (1 / 4 : ℝ) ≤ 1 / 2 ∧
    (applyBrightnessCurve (1 / 4) "sqrt" ≤ applyBrightnessCurve (1 / 2) "sqrt" ∧
      reverseBrightnessCurve (applyBrightnessCurve (1 / 4) "sqrt") "sqrt" = 1 / 4 ∧
      applyBlendedCurve (1 / 4) "sqrt" ≤ applyBlendedCurve (1 / 2) "sqrt") := by
  have h := curve_contract "sqrt" (1 / 4) (1 / 2)
    (by norm_num) (by norm_num) (by norm_num) (by norm_num)
  exact ⟨by norm_num, by norm_num, by norm_num, by norm_num,
    h.2.1, h.2.2.2.2.1, h.2.2.2.2.2.2.1⟩

end CombinedLights
